import Mathlib

/-!
Shallow embedding of the human-interaction emulation engine
(`src/human.ts` of n8n-nodes-playwright-cdp) and proofs of the
specification claims about it.

JavaScript numbers are modelled as real numbers; `Math.random()` draws are
made explicit parameters in `[0,1)`; `Math.round` is Mathlib's `round`
(`round x = ⌊x + 1/2⌋`, which agrees with JS `Math.round` everywhere);
asynchronous actor calls become entries of an explicit action trace; thrown
errors become `Except.error` carrying the thrown message string.
-/

noncomputable section

namespace Human

/-- Point in 2D space (source: `interface Point { x; y }`). -/
structure Point where
  x : ℝ
  y : ℝ

/-- A `{min, max}` range from the configuration. -/
structure Range where
  min : ℝ
  max : ℝ

/-- Default configuration values (source: `const DEFAULTS = {...}`). -/
structure DefaultsT where
  mouseSpeed : Range
  typingDelay : Range
  scrollDelay : Range
  moveSteps : ℕ

/-- `DEFAULTS`: mouseSpeed 100–300 px/100ms, typingDelay 50–150 ms,
scrollDelay 50–100 ms, 25 movement steps. -/
def DEFAULTS : DefaultsT :=
  { mouseSpeed := ⟨100, 300⟩
  , typingDelay := ⟨50, 150⟩
  , scrollDelay := ⟨50, 100⟩
  , moveSteps := 25 }

/-- `HumanEmulationConfig` (from `./types`): `enabled` plus three optional
ranges; an absent range falls back to the matching `DEFAULTS` entry. -/
structure HumanEmulationConfig where
  enabled : Bool
  mouseSpeed : Option Range := none
  typingDelay : Option Range := none
  scrollDelay : Option Range := none

/-- `randomBetween(min, max) = Math.random() * (max - min) + min`, with the
`Math.random()` draw `rand ∈ [0,1)` made explicit as the first argument. -/
def randomBetween (rand lo hi : ℝ) : ℝ :=
  rand * (hi - lo) + lo

/-- A value is a valid `Math.random()` draw when it lies in `[0,1)`. -/
def IsDraw (r : ℝ) : Prop := 0 ≤ r ∧ r < 1

/-- `bezierPoint(t, p0, p1, p2, p3)`: cubic Bezier blend
`mt³·p0 + 3·mt²·t·p1 + 3·mt·t²·p2 + t³·p3` with `mt = 1 - t`. -/
def bezierPoint (t : ℝ) (p0 p1 p2 p3 : Point) : Point :=
  let t2 := t * t
  let t3 := t2 * t
  let mt := 1 - t
  let mt2 := mt * mt
  let mt3 := mt2 * mt
  { x := mt3 * p0.x + 3 * mt2 * t * p1.x + 3 * mt * t2 * p2.x + t3 * p3.x
  , y := mt3 * p0.y + 3 * mt2 * t * p1.y + 3 * mt * t2 * p2.y + t3 * p3.y }

/-- The random draws consumed by one `generateMousePath` call: one draw for
each of the two offsets and two angles, and per-sample draws for the x and y
jitter of point `i`. -/
structure PathRand where
  offR1 : ℝ
  offR2 : ℝ
  angR1 : ℝ
  angR2 : ℝ
  jitX : ℕ → ℝ
  jitY : ℕ → ℝ

/-- All draws of a `PathRand` are valid `Math.random()` results. -/
def PathRand.Valid (r : PathRand) : Prop :=
  IsDraw r.offR1 ∧ IsDraw r.offR2 ∧ IsDraw r.angR1 ∧ IsDraw r.angR2 ∧
    (∀ i, IsDraw (r.jitX i)) ∧ ∀ i, IsDraw (r.jitY i)

/-- Control-point derivation of `generateMousePath` (source lines 63–83):
distance `d` between the endpoints, offsets `randomBetween(0.2,0.4)·d`,
angles `randomBetween(-π/4, π/4)`, and
`cp₁ = start + 0.25·Δ + (cos θ₁, sin θ₁)·offset₁`,
`cp₂ = start + 0.75·Δ + (cos θ₂, sin θ₂)·offset₂`. -/
def controlPoints (rnd : PathRand) (start stop : Point) : Point × Point :=
  let dx := stop.x - start.x
  let dy := stop.y - start.y
  let distance := Real.sqrt (dx * dx + dy * dy)
  let offset1 := randomBetween rnd.offR1 0.2 0.4 * distance
  let offset2 := randomBetween rnd.offR2 0.2 0.4 * distance
  let angle1 := randomBetween rnd.angR1 (-(Real.pi / 4)) (Real.pi / 4)
  let angle2 := randomBetween rnd.angR2 (-(Real.pi / 4)) (Real.pi / 4)
  ( { x := start.x + dx * 0.25 + Real.cos angle1 * offset1
    , y := start.y + dy * 0.25 + Real.sin angle1 * offset1 }
  , { x := start.x + dx * 0.75 + Real.cos angle2 * offset2
    , y := start.y + dy * 0.75 + Real.sin angle2 * offset2 } )

/-- `generateMousePath(start, end, steps)` (source lines 60–97): sample the
cubic Bezier through the two random control points at `t = i/steps` for
`i = 0..steps`, add jitter `randomBetween(-1,1)` to each axis, and round. -/
def generateMousePath (rnd : PathRand) (start stop : Point) (steps : ℕ) :
    List Point :=
  let cp := controlPoints rnd start stop
  (List.range (steps + 1)).map fun (i : ℕ) =>
    let t := (i : ℝ) / (steps : ℝ)
    let point := bezierPoint t start cp.1 cp.2 stop
    { x := (round (point.x + randomBetween (rnd.jitX i) (-1) 1) : ℤ)
    , y := (round (point.y + randomBetween (rnd.jitY i) (-1) 1) : ℤ) }

/-- Mouse buttons accepted by `humanClick`'s options. -/
inductive MouseButton where
  | left
  | right
  | middle
deriving DecidableEq

/-- One actor call or suspension issued by the engine, in order: the traces
of the emulation functions are lists of these. -/
inductive Action where
  | sleep (ms : ℝ)
  | mouseMove (x y : ℝ)
  | mouseClick (x y : ℝ) (button : MouseButton) (clickCount : ℕ)
  | keyboardType (c : Char)
  | keyboardPress (combo : String)
  | mouseWheel (dx dy : ℝ)

/-- An element's bounding rectangle as reported by the actor. -/
structure BoundingBox where
  x : ℝ
  y : ℝ
  width : ℝ
  height : ℝ

/-- `getRandomPointInElement(element)` (source lines 102–116): fails with
`Element has no bounding box` when `element.boundingBox()` is null, else
returns a point inside the box away from the edges (10% margin), the box
being passed here as the `Option` result of `element.boundingBox()`. -/
def getRandomPointInElement (rx ry : ℝ) (box : Option BoundingBox) :
    Except String Point :=
  match box with
  | none => .error "Element has no bounding box"
  | some box =>
    let marginX := box.width * 0.1
    let marginY := box.height * 0.1
    .ok { x := box.x + marginX + randomBetween rx 0 (box.width - 2 * marginX)
        , y := box.y + marginY + randomBetween ry 0 (box.height - 2 * marginY) }

/-- `moveMouseAlongPath(page, path, config)` (source lines 126–147): for each
point after the first, sleep `max 1 ((dist/randomSpeed)·100)` then move; after
the loop, `lastMousePosition` becomes the path's last point when the path is
non-empty. Returns the action trace and the new `lastMousePosition`. -/
def moveMouseAlongPath (path : List Point) (config : HumanEmulationConfig)
    (speedR : ℕ → ℝ) (lastMousePosition : Point) : List Action × Point :=
  let speed := config.mouseSpeed.getD DEFAULTS.mouseSpeed
  let actions := (List.range path.length).flatMap fun (i : ℕ) =>
    let point := path.getD i ⟨0, 0⟩
    (if 0 < i then
      let prev := path.getD (i - 1) ⟨0, 0⟩
      let dist := Real.sqrt ((point.x - prev.x) ^ 2 + (point.y - prev.y) ^ 2)
      let delay := dist / randomBetween (speedR i) speed.min speed.max * 100
      [Action.sleep (max 1 delay)]
    else []) ++ [Action.mouseMove point.x point.y]
  let newPos :=
    if h : 0 < path.length then path.get ⟨path.length - 1, by omega⟩
    else lastMousePosition
  (actions, newPos)

/-- The actor surface consumed by target resolution: `page.$(selector)`
(an element handle or null) and `element.boundingBox()` (a box or null). -/
structure PageModel where
  query : String → Option ℕ
  boundingBox : ℕ → Option BoundingBox

/-- The options bag of `humanClick`. -/
structure ClickOptions where
  button : Option MouseButton := none
  clickCount : Option ℕ := none

/-- JS `v || d` on an optional number: `0` is falsy, so it also falls back. -/
def jsOrNat (v : Option ℕ) (d : ℕ) : ℕ :=
  match v with
  | some n => if n = 0 then d else n
  | none => d

/-- Random draws consumed by one `humanClick` call. -/
structure ClickRand where
  pointRX : ℝ
  pointRY : ℝ
  path : PathRand
  speedR : ℕ → ℝ
  hesitateR : ℝ
  afterR : ℝ

/-- `humanClick(page, selector, config, options)` (source lines 152–184):
resolve the element (else `Element not found: <selector>`), pick the random
target point (else the bounding-box error), plan a path from
`lastMousePosition`, drive it, hesitate 50–150 ms, click with the requested
button (default left) and click count (default 1), pause 50–100 ms. Returns
the trace and the updated `lastMousePosition`. -/
def humanClick (page : PageModel) (selector : String)
    (config : HumanEmulationConfig) (options : Option ClickOptions)
    (rnd : ClickRand) (lastMousePosition : Point) :
    Except String (List Action × Point) :=
  match page.query selector with
  | none => .error ("Element not found: " ++ selector)
  | some element =>
    match getRandomPointInElement rnd.pointRX rnd.pointRY
        (page.boundingBox element) with
    | .error e => .error e
    | .ok targetPoint =>
      let path :=
        generateMousePath rnd.path lastMousePosition targetPoint
          DEFAULTS.moveSteps
      let mv := moveMouseAlongPath path config rnd.speedR lastMousePosition
      .ok (mv.1 ++
        [ Action.sleep (randomBetween rnd.hesitateR 50 150)
        , Action.mouseClick targetPoint.x targetPoint.y
            ((options.bind ClickOptions.button).getD .left)
            (jsOrNat (options.bind ClickOptions.clickCount) 1)
        , Action.sleep (randomBetween rnd.afterR 50 100) ]
      , mv.2)

/-- The characters that lengthen the typing delay:
`['.', ',', '!', '?', ' ', '\n']` (source lines 212 and 243). -/
def specialChars : List Char := ['.', ',', '!', '?', ' ', '\n']

/-- The per-character delay of the typing loops of `humanType` (lines
206–217) and `humanFill` (lines 240–247): a draw from the typing-delay
range, multiplied by a draw from `[1.5, 2.5)` when the character is in
`specialChars`. -/
def charDelay (baseR multR : ℝ) (typingDelay : Range) (c : Char) : ℝ :=
  let delay := randomBetween baseR typingDelay.min typingDelay.max
  if c ∈ specialChars then delay * randomBetween multR 1.5 2.5 else delay

/-- The keystroke/delay trace shared by the typing loops of `humanType` and
`humanFill`: for the `i`-th character, an actor `keyboard.type` call followed
by a sleep of `charDelay` at that character. -/
def typeTrace (text : List Char) (typingDelay : Range)
    (baseR multR : ℕ → ℝ) : List Action :=
  text.enum.flatMap fun ic =>
    [ Action.keyboardType ic.2
    , Action.sleep (charDelay (baseR ic.1) (multR ic.1) typingDelay ic.2) ]

/-- The (unused) options bag of `humanType`. -/
structure TypeOptions where
  delay : Option ℝ := none

/-- Random draws consumed by one `humanType` call. -/
structure TypeRand where
  click : ClickRand
  preR : ℝ
  baseR : ℕ → ℝ
  multR : ℕ → ℝ

/-- `humanType(page, selector, text, config, options?)` (source lines
189–218): `options` is declared but unused (eslint no-unused-vars). Click the
selector first, pause 100–200 ms, then run the per-character typing loop. -/
def humanType (page : PageModel) (selector : String) (text : List Char)
    (config : HumanEmulationConfig) (options : Option TypeOptions)
    (rnd : TypeRand) (lastMousePosition : Point) :
    Except String (List Action × Point) :=
  let typingDelay := config.typingDelay.getD DEFAULTS.typingDelay
  match humanClick page selector config none rnd.click lastMousePosition with
  | .error e => .error e
  | .ok click =>
    .ok (click.1 ++ [Action.sleep (randomBetween rnd.preR 100 200)] ++
        typeTrace text typingDelay rnd.baseR rnd.multR
      , click.2)

/-- Random draws consumed by one `humanFill` call. -/
structure FillRand where
  click : ClickRand
  selectR : ℝ
  deleteR : ℝ
  baseR : ℕ → ℝ
  multR : ℕ → ℝ

/-- `humanFill(page, selector, text, config)` (source lines 223–248): click
the selector, press `Control+a`, pause 50–100 ms, press `Backspace`, pause
100–200 ms, then run the same per-character typing loop as `humanType`. -/
def humanFill (page : PageModel) (selector : String) (text : List Char)
    (config : HumanEmulationConfig) (rnd : FillRand)
    (lastMousePosition : Point) : Except String (List Action × Point) :=
  match humanClick page selector config none rnd.click lastMousePosition with
  | .error e => .error e
  | .ok click =>
    let typingDelay := config.typingDelay.getD DEFAULTS.typingDelay
    .ok (click.1 ++
        [ Action.keyboardPress "Control+a"
        , Action.sleep (randomBetween rnd.selectR 50 100)
        , Action.keyboardPress "Backspace"
        , Action.sleep (randomBetween rnd.deleteR 100 200) ] ++
        typeTrace text typingDelay rnd.baseR rnd.multR
      , click.2)

/-- Scroll direction argument of `humanScroll`. -/
inductive ScrollDirection where
  | up
  | down
deriving DecidableEq

/-- Random draws consumed by one `humanScroll` call: the single chunk-size
draw (sampled once, reused for every chunk) and per-chunk delay draws. -/
structure ScrollRand where
  chunkR : ℝ
  delayR : ℕ → ℝ

/-- `humanScroll(page, direction, amount, config)` (source lines 253–271):
`chunkSize = randomBetween(50,150)`, `chunks = ceil(amount / chunkSize)`;
chunk `i` wheels `min(chunkSize, amount - i·chunkSize)` signed by direction
(down = +1, up = -1), then sleeps a scroll-delay draw. -/
def humanScroll (direction : ScrollDirection) (amount : ℝ)
    (config : HumanEmulationConfig) (rnd : ScrollRand) : List Action :=
  let scrollDelay := config.scrollDelay.getD DEFAULTS.scrollDelay
  let scrollDirection : ℝ := if direction = .down then 1 else -1
  let chunkSize := randomBetween rnd.chunkR 50 150
  let chunks : ℤ := ⌈amount / chunkSize⌉
  (List.range chunks.toNat).flatMap fun (i : ℕ) =>
    [ Action.mouseWheel 0 (min chunkSize (amount - i * chunkSize) *
        scrollDirection)
    , Action.sleep (randomBetween (rnd.delayR i) scrollDelay.min
        scrollDelay.max) ]

/-- The wheel deltas (`dy` of each `mouse.wheel` call) of a trace. -/
def wheelDeltas (trace : List Action) : List ℝ :=
  trace.filterMap fun a =>
    match a with
    | .mouseWheel _ dy => some dy
    | _ => none

/-- A member of the page object as seen through property lookup: an
invocable member (optionally bound to a target), one of the three
humanized closures installed by the proxy, or a plain non-invocable value. -/
inductive Member where
  | func (name : String) (bound : Bool)
  | humanized (op : String) (config : HumanEmulationConfig)
  | data (name : String)

/-- The proxy's `get` handler (source lines 282–312): `click`, `type` and
`fill` become closures delegating to the humanized primitives with the
captured config; any other invocable member is returned bound to the target
(`value.bind(target)`); non-invocable members are returned unchanged. -/
def proxyHandlerGet (target : String → Member)
    (config : HumanEmulationConfig) (prop : String) : Member :=
  let value := target prop
  if prop = "click" then .humanized "click" config
  else if prop = "type" then .humanized "type" config
  else if prop = "fill" then .humanized "fill" config
  else
    match value with
    | .func name _ => .func name true
    | v => v

/-- `createHumanizedPage(page, config)` (source lines 277–316): when
`config.enabled` is false the original page itself is returned; otherwise a
proxy whose property lookup goes through `proxyHandlerGet`. -/
def createHumanizedPage (page : String → Member)
    (config : HumanEmulationConfig) : String → Member :=
  if !config.enabled then page
  else fun prop => proxyHandlerGet page config prop

/-- Two points agree within `b` units on each axis. -/
def NearBy (p q : Point) (b : ℝ) : Prop :=
  |p.x - q.x| ≤ b ∧ |p.y - q.y| ≤ b

/-- The spec's `ElementNotFound` failure case for a click-family call:
the selector resolves to no element (and the thrown message names the
selector), or it resolves to an element whose bounding box is null (and the
thrown message is the bounding-box one). -/
def ElementNotFoundCase (page : PageModel) (selector : String) (e : String) :
    Prop :=
  (page.query selector = none ∧ e = "Element not found: " ++ selector) ∨
    ∃ el, page.query selector = some el ∧ page.boundingBox el = none ∧
      e = "Element has no bounding box"

/-- Modelled from the spec: "displaced by a random fraction of `d` … along a
randomly chosen direction within ±45° of perpendicular". The displacement
`v = cp - base` of a control point from its longitudinal base point makes an
angle of at most 45° with the perpendicular `(-(stop.y - start.y),
stop.x - start.x)` of the start–end line (either orientation), i.e.
`|⟪v, perp⟫| ≥ cos 45° · ‖v‖ · ‖perp‖`. -/
def WithinPerpCone (start stop base cp : Point) : Prop :=
  let ux := stop.x - start.x
  let uy := stop.y - start.y
  let vx := cp.x - base.x
  let vy := cp.y - base.y
  |vx * (-uy) + vy * ux| ≥
    Real.sqrt 2 / 2 * Real.sqrt (vx ^ 2 + vy ^ 2) *
      Real.sqrt (ux ^ 2 + uy ^ 2)

/-- A `PathRand` whose every draw is `1/2` (all concrete examples use it). -/
def halfPathRand : PathRand :=
  { offR1 := 1/2, offR2 := 1/2, angR1 := 1/2, angR2 := 1/2
  , jitX := fun _ => 1/2, jitY := fun _ => 1/2 }

/-- Jitter draws for the C1 counterexample: draw `1/2` (zero jitter) for the
first sample and `39/40` (jitter `0.95`) afterwards. -/
def cexJitter (i : ℕ) : ℝ := if i = 0 then 1/2 else 39/40

/-- Random draws for the C1 counterexample. -/
def cexPathRand : PathRand :=
  { offR1 := 1/2, offR2 := 1/2, angR1 := 1/2, angR2 := 1/2
  , jitX := cexJitter, jitY := fun _ => 1/2 }

end Human

namespace Human

/-- C10 support: `bezierPoint` at `t = 0` returns `p0` exactly. -/
theorem bezierPoint_zero (p0 p1 p2 p3 : Point) :
    bezierPoint 0 p0 p1 p2 p3 = p0 := by
  cases p0 with
  | mk x y => simp [bezierPoint]

/-- C10 support: `bezierPoint` at `t = 1` returns `p3` exactly. -/
theorem bezierPoint_one (p0 p1 p2 p3 : Point) :
    bezierPoint 1 p0 p1 p2 p3 = p3 := by
  cases p3 with
  | mk x y => simp [bezierPoint]

/-- C10: for every four control points, `bezierPoint 0 … = p0` and
`bezierPoint 1 … = p3`, so the sampled curve (before jitter) begins exactly
at the path's start point and ends exactly at its end point. -/
theorem bezier_endpoint_identities (p0 p1 p2 p3 : Point) :
    bezierPoint 0 p0 p1 p2 p3 = p0 ∧ bezierPoint 1 p0 p1 p2 p3 = p3 :=
  ⟨bezierPoint_zero p0 p1 p2 p3, bezierPoint_one p0 p1 p2 p3⟩

/-- C5: for every actor and every configuration with `enabled = false`,
`createHumanizedPage` returns the original actor itself, with no wrapper
constructed. -/
theorem wrap_disabled_is_identity (page : String → Member)
    (config : HumanEmulationConfig) (h : config.enabled = false) :
    createHumanizedPage page config = page := by
  simp [createHumanizedPage, h]

/-- C5 witness: a concrete disabled configuration on a concrete page. -/
theorem wrap_disabled_is_identity_witness :
    ({ enabled := false } : HumanEmulationConfig).enabled = false ∧
      createHumanizedPage (fun _ => Member.data "title") { enabled := false } =
        fun _ => Member.data "title" :=
  ⟨rfl, wrap_disabled_is_identity (fun _ => Member.data "title")
    { enabled := false } rfl⟩

/-- C9: `humanType` ignores its `options` argument — for any two options
values it produces exactly the same outcome (same actor-call/delay trace,
same final mouse position, same error), depending only on the page,
selector, text, config, random draws and prior state. -/
theorem humanType_independent_of_options (page : PageModel)
    (selector : String) (text : List Char) (config : HumanEmulationConfig)
    (o1 o2 : Option TypeOptions) (rnd : TypeRand) (st : Point) :
    humanType page selector text config o1 rnd st =
      humanType page selector text config o2 rnd st := rfl

/-- C4: for every bounding box with nonnegative width and height and every
random draw, the click target of `getRandomPointInElement` lies within
`[x + 0.1·W, x + 0.9·W] × [y + 0.1·H, y + 0.9·H]`. -/
theorem click_target_in_interior (box : BoundingBox) (rx ry : ℝ)
    (hW : 0 ≤ box.width) (hH : 0 ≤ box.height)
    (hrx : IsDraw rx) (hry : IsDraw ry) :
    ∃ p, getRandomPointInElement rx ry (some box) = .ok p ∧
      box.x + 0.1 * box.width ≤ p.x ∧ p.x ≤ box.x + 0.9 * box.width ∧
      box.y + 0.1 * box.height ≤ p.y ∧ p.y ≤ box.y + 0.9 * box.height := by
  obtain ⟨hrx0, hrx1⟩ := hrx
  obtain ⟨hry0, hry1⟩ := hry
  refine ⟨_, rfl, ?_, ?_, ?_, ?_⟩ <;>
      simp only [getRandomPointInElement, randomBetween]
  · nlinarith [mul_nonneg hrx0 hW]
  · nlinarith [mul_nonneg (by linarith : (0:ℝ) ≤ 1 - rx) hW]
  · nlinarith [mul_nonneg hry0 hH]
  · nlinarith [mul_nonneg (by linarith : (0:ℝ) ≤ 1 - ry) hH]

/-- C4 witness: the box `{x := 0, y := 0, width := 10, height := 20}` with
both draws `1/2`. -/
theorem click_target_in_interior_witness :
    (0:ℝ) ≤ (10:ℝ) ∧ (0:ℝ) ≤ (20:ℝ) ∧ IsDraw (1/2) ∧
      ∃ p, getRandomPointInElement (1/2) (1/2) (some ⟨0, 0, 10, 20⟩) = .ok p ∧
        (0:ℝ) + 0.1 * 10 ≤ p.x ∧ p.x ≤ (0:ℝ) + 0.9 * 10 ∧
        (0:ℝ) + 0.1 * 20 ≤ p.y ∧ p.y ≤ (0:ℝ) + 0.9 * 20 :=
  ⟨by norm_num, by norm_num, by norm_num [IsDraw],
    click_target_in_interior ⟨0, 0, 10, 20⟩ (1/2) (1/2) (by norm_num)
      (by norm_num) (by norm_num [IsDraw]) (by norm_num [IsDraw])⟩

/-- C6 support: `humanClick` fails exactly on the `ElementNotFound` cases,
with exactly the resolution error, for any options and random draws. -/
theorem humanClick_error_iff (page : PageModel) (selector : String)
    (config : HumanEmulationConfig) (options : Option ClickOptions)
    (rnd : ClickRand) (st : Point) (e : String) :
    humanClick page selector config options rnd st = .error e ↔
      ElementNotFoundCase page selector e := by
  unfold humanClick ElementNotFoundCase
  cases hq : page.query selector with
  | none => simp [hq, eq_comm]
  | some el =>
    cases hb : page.boundingBox el with
    | none => simp [hq, hb, getRandomPointInElement, eq_comm]
    | some box => simp [hq, hb, getRandomPointInElement]

/-- C6: `humanClick`, and `humanType` and `humanFill` (which begin with a
click), throw an error precisely when the selector resolves to no element or
the resolved element reports no bounding box, and the thrown error is the
resolution error itself, unmodified. -/
theorem clickFamily_elementNotFound_iff (page : PageModel) (selector : String)
    (config : HumanEmulationConfig) (options : Option ClickOptions)
    (text : List Char) (topts : Option TypeOptions)
    (crnd : ClickRand) (trnd : TypeRand) (frnd : FillRand)
    (st : Point) (e : String) :
    (humanClick page selector config options crnd st = .error e ↔
      ElementNotFoundCase page selector e) ∧
    (humanType page selector text config topts trnd st = .error e ↔
      ElementNotFoundCase page selector e) ∧
    (humanFill page selector text config frnd st = .error e ↔
      ElementNotFoundCase page selector e) := by
  refine ⟨humanClick_error_iff page selector config options crnd st e, ?_, ?_⟩
  · unfold humanType
    cases hc : humanClick page selector config none trnd.click st with
    | error e' =>
      simp only [hc]
      constructor
      · intro h
        simp only [Except.error.injEq] at h
        subst h
        exact (humanClick_error_iff page selector config none trnd.click st
          e').mp hc
      · intro hcase
        have := (humanClick_error_iff page selector config none trnd.click st
          e).mpr hcase
        rw [hc] at this
        simpa using this
    | ok res =>
      simp only [hc]
      constructor
      · intro h; simp at h
      · intro hcase
        have := (humanClick_error_iff page selector config none trnd.click st
          e).mpr hcase
        rw [hc] at this
        simp at this
  · unfold humanFill
    cases hc : humanClick page selector config none frnd.click st with
    | error e' =>
      simp only [hc]
      constructor
      · intro h
        simp only [Except.error.injEq] at h
        subst h
        exact (humanClick_error_iff page selector config none frnd.click st
          e').mp hc
      · intro hcase
        have := (humanClick_error_iff page selector config none frnd.click st
          e).mpr hcase
        rw [hc] at this
        simpa using this
    | ok res =>
      simp only [hc]
      constructor
      · intro h; simp at h
      · intro hcase
        have := (humanClick_error_iff page selector config none frnd.click st
          e).mpr hcase
        rw [hc] at this
        simp at this

/-- C7: after a completed `moveMouseAlongPath` run over a non-empty path,
`lastMousePosition` equals the last point of that path; over an empty path it
is left unchanged. -/
theorem moveMouse_updates_lastPosition (path : List Point)
    (config : HumanEmulationConfig) (speedR : ℕ → ℝ) (st : Point) :
    (∀ h : path ≠ [],
      (moveMouseAlongPath path config speedR st).2 = path.getLast h) ∧
    (path = [] → (moveMouseAlongPath path config speedR st).2 = st) := by
  constructor
  · intro h
    have hlen : 0 < path.length := List.length_pos.mpr h
    simp only [moveMouseAlongPath, dif_pos hlen]
    rw [List.getLast_eq_getElem]
    rfl
  · intro h
    subst h
    simp [moveMouseAlongPath]

/-- C7 witness: a concrete two-point path ends with state `(3,4)`. -/
theorem moveMouse_updates_lastPosition_witness :
    (moveMouseAlongPath [⟨1, 2⟩, ⟨3, 4⟩] { enabled := true } (fun _ => 1/2)
      ⟨0, 0⟩).2 = ⟨3, 4⟩ := by
  have := (moveMouse_updates_lastPosition [⟨1, 2⟩, ⟨3, 4⟩]
    { enabled := true } (fun _ => 1/2) ⟨0, 0⟩).1 (by simp)
  simpa using this

/-- C8: the per-character typing delay of `humanType`/`humanFill` is a draw
from the typing-delay range; for `. , ! ? space newline` it is that draw
multiplied by a factor in `[1.5, 2.5)` (hence always ≥ 1), and for any other
character no multiplier is applied. -/
theorem typing_delay_spec (baseR multR : ℝ) (td : Range) (c : Char)
    (hb : IsDraw baseR) (hm : IsDraw multR) (hr : td.min ≤ td.max) :
    (td.min ≤ randomBetween baseR td.min td.max ∧
      randomBetween baseR td.min td.max ≤ td.max) ∧
    (c ∈ specialChars →
      ∃ m, 1.5 ≤ m ∧ m < 2.5 ∧ 1 ≤ m ∧
        charDelay baseR multR td c = randomBetween baseR td.min td.max * m) ∧
    (c ∉ specialChars →
      charDelay baseR multR td c = randomBetween baseR td.min td.max) := by
  obtain ⟨hb0, hb1⟩ := hb
  obtain ⟨hm0, hm1⟩ := hm
  refine ⟨⟨?_, ?_⟩, ?_, ?_⟩
  · simp only [randomBetween]; nlinarith
  · simp only [randomBetween]
    nlinarith [mul_nonneg (by linarith : (0:ℝ) ≤ 1 - baseR)
      (by linarith : (0:ℝ) ≤ td.max - td.min)]
  · intro hc
    refine ⟨randomBetween multR 1.5 2.5, ?_, ?_, ?_, by simp [charDelay, hc]⟩
    · simp only [randomBetween]; nlinarith
    · simp only [randomBetween]; nlinarith
    · simp only [randomBetween]; nlinarith
  · intro hc
    simp [charDelay, hc]

/-- C8 witness: draws `1/2`, the default 50–150 ms range, the period
character. -/
theorem typing_delay_spec_witness :
    IsDraw (1/2) ∧ (50:ℝ) ≤ 150 ∧
      (((50:ℝ) ≤ randomBetween (1/2) (50:ℝ) 150 ∧
        randomBetween (1/2) (50:ℝ) 150 ≤ 150) ∧
      ((Char.ofNat 46) ∈ specialChars →
        ∃ m, 1.5 ≤ m ∧ m < 2.5 ∧ 1 ≤ m ∧
          charDelay (1/2) (1/2) ⟨50, 150⟩ (Char.ofNat 46) =
            randomBetween (1/2) (50:ℝ) 150 * m) ∧
      ((Char.ofNat 46) ∉ specialChars →
        charDelay (1/2) (1/2) ⟨50, 150⟩ (Char.ofNat 46) =
          randomBetween (1/2) (50:ℝ) 150)) :=
  ⟨by norm_num [IsDraw], by norm_num,
    typing_delay_spec (1/2) (1/2) ⟨50, 150⟩ (Char.ofNat 46)
      (by norm_num [IsDraw]) (by norm_num [IsDraw]) (by norm_num)⟩

/-- Indexing a map over `List.range`. -/
theorem getD_map_range {α : Type} (f : ℕ → α) (n i : ℕ) (h : i < n) (d : α) :
    ((List.range n).map f).getD i d = f i := by
  rw [List.getD_eq_getElem?_getD, List.getElem?_map, List.getElem?_range h]
  rfl

/-- A `flatMap` producing singletons is a `map`. -/
theorem flatMap_singleton_eq_map {α β : Type} (g : α → β) (l : List α) :
    (l.flatMap fun a => [g a]) = l.map g := by
  induction l with
  | nil => rfl
  | cons a t ih => simp [ih]

/-- C3 support: the wheel deltas emitted by `humanScroll` are exactly
`min(chunkSize, amount - i·chunkSize) · sign` for `i < ceil(amount/chunkSize)`
in order. -/
theorem wheelDeltas_humanScroll (direction : ScrollDirection) (amount : ℝ)
    (config : HumanEmulationConfig) (rnd : ScrollRand) :
    wheelDeltas (humanScroll direction amount config rnd) =
      (List.range (⌈amount / randomBetween rnd.chunkR 50 150⌉).toNat).map
        fun (i : ℕ) =>
          min (randomBetween rnd.chunkR 50 150)
              (amount - (i : ℝ) * randomBetween rnd.chunkR 50 150) *
            (if direction = .down then 1 else -1) := by
  unfold humanScroll wheelDeltas
  rw [List.filterMap_flatMap]
  rw [← flatMap_singleton_eq_map]
  congr 1

/-- C3 support: for `c > 0`, `a ≥ 0` and `n = ceil(a/c)`, the chunk sizes
`min(c, a - i·c)`, `i = 0..n-1`, sum exactly to `a`. -/
theorem sum_min_chunks (c : ℝ) (hc : 0 < c) :
    ∀ (n : ℕ) (a : ℝ), 0 ≤ a → (⌈a / c⌉).toNat = n →
      (((List.range n).map fun (i : ℕ) => min c (a - (i : ℝ) * c)).sum) = a := by
  intro n
  induction n with
  | zero =>
    intro a ha h0
    have h1 : ⌈a / c⌉ ≤ 0 := by omega
    have h2 : a / c ≤ ((0 : ℤ) : ℝ) := Int.ceil_le.mp h1
    have h3 : a ≤ 0 := by
      by_contra hcon
      push_neg at hcon
      have : 0 < a / c := div_pos hcon hc
      simp at h2
      linarith
    have ha0 : a = 0 := le_antisymm h3 ha
    simp [ha0]
  | succ n ih =>
    intro a ha h0
    have hceil : ⌈a / c⌉ = (n : ℤ) + 1 := by omega
    rw [List.range_succ_eq_map]
    simp only [List.map_cons, List.map_map, List.sum_cons, Nat.cast_zero,
      zero_mul, sub_zero]
    have hfun : ((fun i : ℕ => min c (a - (i : ℝ) * c)) ∘ Nat.succ) =
        fun i : ℕ => min c ((a - c) - (i : ℝ) * c) := by
      funext i
      simp only [Function.comp]
      congr 1
      push_cast
      ring
    rw [hfun]
    rcases Nat.eq_zero_or_pos n with hn0 | hn1
    · subst hn0
      have hle : a / c ≤ ((1 : ℤ) : ℝ) := Int.ceil_le.mp (le_of_eq hceil)
      have hle' : a ≤ c := by
        rw [Int.cast_one] at hle
        exact (div_le_one hc).mp hle
      simp [min_eq_right hle']
    · have hlt : ((n : ℤ) : ℝ) < a / c := Int.lt_ceil.mp (by omega)
      have hnc : (n : ℝ) * c < a := by
        rw [Int.cast_natCast] at hlt
        exact (lt_div_iff₀ hc).mp hlt
      have hca : c ≤ a := by
        have h1n : (1 : ℝ) ≤ (n : ℝ) := by exact_mod_cast hn1
        nlinarith
      have ha' : 0 ≤ a - c := by linarith
      have hceil' : (⌈(a - c) / c⌉).toNat = n := by
        have hdiv : (a - c) / c = a / c - ((1 : ℤ) : ℝ) := by
          rw [sub_div, div_self hc.ne', Int.cast_one]
        rw [hdiv, Int.ceil_sub_int, hceil]
        omega
      rw [ih (a - c) ha' hceil', min_eq_left hca]
      ring

/-- C3: for every scroll with `amount ≥ 0`, the sampled chunk size lies in
`[50, 150]`, the number of wheel chunks is `ceil(amount / chunkSize)`, the
`i`-th delta is `min(chunkSize, amount - i·chunkSize)` signed by direction
(down positive, up negative), and the deltas sum exactly to the requested
amount (negated for `up`). -/
theorem scroll_chunks_spec (direction : ScrollDirection) (amount : ℝ)
    (config : HumanEmulationConfig) (rnd : ScrollRand)
    (ha : 0 ≤ amount) (hr : IsDraw rnd.chunkR) :
    (50 : ℝ) ≤ randomBetween rnd.chunkR 50 150 ∧
    randomBetween rnd.chunkR 50 150 ≤ 150 ∧
    (wheelDeltas (humanScroll direction amount config rnd)).length =
      (⌈amount / randomBetween rnd.chunkR 50 150⌉).toNat ∧
    (∀ i : ℕ,
      i < (wheelDeltas (humanScroll direction amount config rnd)).length →
      (wheelDeltas (humanScroll direction amount config rnd)).getD i 0 =
        min (randomBetween rnd.chunkR 50 150)
            (amount - (i : ℝ) * randomBetween rnd.chunkR 50 150) *
          (if direction = .down then 1 else -1)) ∧
    (direction = .down →
      (wheelDeltas (humanScroll direction amount config rnd)).sum = amount) ∧
    (direction = .up →
      (wheelDeltas (humanScroll direction amount config rnd)).sum = -amount) := by
  obtain ⟨h0, h1⟩ := hr
  have hc50 : (50 : ℝ) ≤ randomBetween rnd.chunkR 50 150 := by
    simp only [randomBetween]; nlinarith
  have hc150 : randomBetween rnd.chunkR 50 150 ≤ 150 := by
    simp only [randomBetween]; nlinarith
  have hcpos : 0 < randomBetween rnd.chunkR 50 150 := by linarith
  have hsum : ((List.range
        (⌈amount / randomBetween rnd.chunkR 50 150⌉).toNat).map
        fun (i : ℕ) => min (randomBetween rnd.chunkR 50 150)
          (amount - (i : ℝ) * randomBetween rnd.chunkR 50 150)).sum = amount :=
    sum_min_chunks (randomBetween rnd.chunkR 50 150) hcpos
      (⌈amount / randomBetween rnd.chunkR 50 150⌉).toNat amount ha rfl
  refine ⟨hc50, hc150, ?_, ?_, ?_, ?_⟩
  · rw [wheelDeltas_humanScroll]
    simp
  · intro i hi
    rw [wheelDeltas_humanScroll] at hi ⊢
    simp only [List.length_map, List.length_range] at hi
    rw [getD_map_range _ _ _ hi]
  · intro hdir
    subst hdir
    rw [wheelDeltas_humanScroll, List.sum_map_mul_right, hsum]
    simp
  · intro hdir
    subst hdir
    rw [wheelDeltas_humanScroll, List.sum_map_mul_right, hsum]
    simp

/-- C3 witness: `scroll(down, 300)` with chunk-size draw `7/10` (chunk size
`120`, the spec's own example). -/
theorem scroll_chunks_spec_witness :
    (0 : ℝ) ≤ 300 ∧ IsDraw (7/10) ∧
    ((50 : ℝ) ≤ randomBetween (7/10) 50 150 ∧
    randomBetween (7/10) 50 150 ≤ 150 ∧
    (wheelDeltas (humanScroll .down 300 { enabled := true }
        ⟨7/10, fun _ => 1/2⟩)).length =
      (⌈(300 : ℝ) / randomBetween (7/10) 50 150⌉).toNat ∧
    (∀ i : ℕ,
      i < (wheelDeltas (humanScroll .down 300 { enabled := true }
        ⟨7/10, fun _ => 1/2⟩)).length →
      (wheelDeltas (humanScroll .down 300 { enabled := true }
          ⟨7/10, fun _ => 1/2⟩)).getD i 0 =
        min (randomBetween (7/10) 50 150)
            ((300 : ℝ) - (i : ℝ) * randomBetween (7/10) 50 150) *
          (if (ScrollDirection.down = ScrollDirection.down) then 1 else -1)) ∧
    (ScrollDirection.down = ScrollDirection.down →
      (wheelDeltas (humanScroll .down 300 { enabled := true }
        ⟨7/10, fun _ => 1/2⟩)).sum = 300) ∧
    (ScrollDirection.down = ScrollDirection.up →
      (wheelDeltas (humanScroll .down 300 { enabled := true }
        ⟨7/10, fun _ => 1/2⟩)).sum = -300)) :=
  ⟨by norm_num, by norm_num [IsDraw],
    scroll_chunks_spec .down 300 { enabled := true } ⟨7/10, fun _ => 1/2⟩
      (by norm_num) (by norm_num [IsDraw])⟩

/-- The jitter `randomBetween(-1, 1)` has magnitude at most 1. -/
theorem abs_randomBetween_neg_one_one (r : ℝ) (hr : IsDraw r) :
    |randomBetween r (-1) 1| ≤ 1 := by
  obtain ⟨h0, h1⟩ := hr
  rw [abs_le]
  simp only [randomBetween]
  constructor <;> nlinarith

/-- A jittered-then-rounded value differs from the original by at most
`1.5 = 1 (jitter) + 0.5 (rounding)`. -/
theorem round_jitter_bound (v r : ℝ) (hr : IsDraw r) :
    |((round (v + randomBetween r (-1) 1) : ℤ) : ℝ) - v| ≤ 3/2 := by
  have hj : |randomBetween r (-1) 1| ≤ 1 := abs_randomBetween_neg_one_one r hr
  have h2 : |(v + randomBetween r (-1) 1) -
      ((round (v + randomBetween r (-1) 1) : ℤ) : ℝ)| ≤ 1/2 :=
    abs_sub_round (v + randomBetween r (-1) 1)
  have h4 : |((round (v + randomBetween r (-1) 1) : ℤ) : ℝ) -
      (v + randomBetween r (-1) 1)| ≤ 1/2 := by rwa [abs_sub_comm] at h2
  have key : ((round (v + randomBetween r (-1) 1) : ℤ) : ℝ) - v =
      (((round (v + randomBetween r (-1) 1) : ℤ) : ℝ) -
        (v + randomBetween r (-1) 1)) + randomBetween r (-1) 1 := by ring
  rw [key]
  have := abs_add (((round (v + randomBetween r (-1) 1) : ℤ) : ℝ) -
    (v + randomBetween r (-1) 1)) (randomBetween r (-1) 1)
  linarith

/-- The `i`-th point of `generateMousePath`, written out. -/
theorem generateMousePath_point (rnd : PathRand) (start stop : Point)
    (steps i : ℕ) (h : i < steps + 1) (d : Point) :
    (generateMousePath rnd start stop steps).getD i d =
      { x := ((round ((bezierPoint ((i : ℝ) / (steps : ℝ)) start
            (controlPoints rnd start stop).1 (controlPoints rnd start stop).2
            stop).x + randomBetween (rnd.jitX i) (-1) 1) : ℤ) : ℝ)
      , y := ((round ((bezierPoint ((i : ℝ) / (steps : ℝ)) start
            (controlPoints rnd start stop).1 (controlPoints rnd start stop).2
            stop).y + randomBetween (rnd.jitY i) (-1) 1) : ℤ) : ℝ) } := by
  unfold generateMousePath
  rw [getD_map_range _ _ _ h]

/-- C1 (amended): for every start, end and step count `N ≥ 1` with valid
random draws, `generateMousePath` returns exactly `N + 1` points, and the
first point differs from the requested start — and the last from the
requested end — by at most `1.5` units per axis (±1 jitter plus ±0.5
rounding); the claimed 1-unit bound fails for fractional endpoints. -/
theorem path_length_and_endpoints (rnd : PathRand) (start stop : Point)
    (steps : ℕ) (hs : 1 ≤ steps) (hv : rnd.Valid) :
    (generateMousePath rnd start stop steps).length = steps + 1 ∧
    NearBy ((generateMousePath rnd start stop steps).getD 0 ⟨0, 0⟩) start
      (3/2) ∧
    NearBy ((generateMousePath rnd start stop steps).getD steps ⟨0, 0⟩) stop
      (3/2) := by
  obtain ⟨_, _, _, _, hjx, hjy⟩ := hv
  refine ⟨by simp [generateMousePath], ?_, ?_⟩
  · rw [generateMousePath_point rnd start stop steps 0 (by omega) ⟨0, 0⟩]
    have ht : ((0 : ℕ) : ℝ) / (steps : ℝ) = 0 := by simp
    rw [ht, bezierPoint_zero]
    exact ⟨round_jitter_bound start.x (rnd.jitX 0) (hjx 0),
      round_jitter_bound start.y (rnd.jitY 0) (hjy 0)⟩
  · rw [generateMousePath_point rnd start stop steps steps (by omega) ⟨0, 0⟩]
    have hne : ((steps : ℕ) : ℝ) ≠ 0 := Nat.cast_ne_zero.mpr (by omega)
    have ht : ((steps : ℕ) : ℝ) / (steps : ℝ) = 1 := div_self hne
    rw [ht, bezierPoint_one]
    exact ⟨round_jitter_bound stop.x (rnd.jitX steps) (hjx steps),
      round_jitter_bound stop.y (rnd.jitY steps) (hjy steps)⟩

/-- C1 witness: one step from `(0,0)` to `(5,5)` with all draws `1/2`. -/
theorem path_length_and_endpoints_witness :
    1 ≤ 1 ∧ halfPathRand.Valid ∧
    ((generateMousePath halfPathRand ⟨0, 0⟩ ⟨5, 5⟩ 1).length = 1 + 1 ∧
    NearBy ((generateMousePath halfPathRand ⟨0, 0⟩ ⟨5, 5⟩ 1).getD 0 ⟨0, 0⟩)
      ⟨0, 0⟩ (3/2) ∧
    NearBy ((generateMousePath halfPathRand ⟨0, 0⟩ ⟨5, 5⟩ 1).getD 1 ⟨0, 0⟩)
      ⟨5, 5⟩ (3/2)) :=
  ⟨le_refl 1,
    by norm_num [PathRand.Valid, IsDraw, halfPathRand],
    path_length_and_endpoints halfPathRand ⟨0, 0⟩ ⟨5, 5⟩ 1 (le_refl 1)
      (by norm_num [PathRand.Valid, IsDraw, halfPathRand])⟩

/-- C1 counterexample: with valid draws (jitter draw `39/40`, i.e. jitter
`+0.95`), the path from `(0,0)` to `(3/5, 0)` with one step ends at `(2,0)`,
which differs from the requested end by `1.4 > 1` on the x axis — the
claimed 1-unit bound is false as stated. -/
theorem path_endpoint_bound_cex :
    cexPathRand.Valid ∧
    (generateMousePath cexPathRand ⟨0, 0⟩ ⟨3/5, 0⟩ 1).getD 1 ⟨0, 0⟩ =
      ⟨2, 0⟩ ∧
    ¬ NearBy (⟨2, 0⟩ : Point) (⟨3/5, 0⟩ : Point) 1 := by
  refine ⟨⟨by norm_num [IsDraw, cexPathRand],
    by norm_num [IsDraw, cexPathRand], by norm_num [IsDraw, cexPathRand],
    by norm_num [IsDraw, cexPathRand], ?_, ?_⟩, ?_, ?_⟩
  · intro i
    simp only [cexPathRand]
    unfold cexJitter
    split <;> norm_num [IsDraw]
  · intro i
    norm_num [IsDraw, cexPathRand]
  · rw [generateMousePath_point cexPathRand ⟨0, 0⟩ ⟨3/5, 0⟩ 1 1 (by omega)
      ⟨0, 0⟩]
    have ht : ((1 : ℕ) : ℝ) / ((1 : ℕ) : ℝ) = 1 := by norm_num
    rw [ht, bezierPoint_one]
    have hjx : cexPathRand.jitX 1 = 39/40 := by
      simp [cexPathRand, cexJitter]
    have hjy : cexPathRand.jitY 1 = 1/2 := by simp [cexPathRand]
    rw [hjx, hjy]
    have hx : round ((3/5 : ℝ) + randomBetween (39/40) (-1) 1) = (2 : ℤ) := by
      have harg : (3/5 : ℝ) + randomBetween (39/40) (-1) 1 = 31/20 := by
        norm_num [randomBetween]
      rw [harg, round_eq]
      refine Int.floor_eq_iff.mpr ⟨by norm_num, by norm_num⟩
    have hy : round ((0 : ℝ) + randomBetween (1/2) (-1) 1) = (0 : ℤ) := by
      have harg : (0 : ℝ) + randomBetween (1/2) (-1) 1 = 0 := by
        norm_num [randomBetween]
      rw [harg, round_eq]
      refine Int.floor_eq_iff.mpr ⟨by norm_num, by norm_num⟩
    simp [hx, hy]
    norm_num [randomBetween]
  · intro hnear
    obtain ⟨h1, _⟩ := hnear
    rw [show |(2 : ℝ) - 3/5| = 7/5 by rw [abs_of_pos] <;> norm_num] at h1
    norm_num at h1

/-- C2 (code evaluated at the failing input): on the horizontal line
`(0,0) → (10,0)` (distance `d = 10`) with all draws `1/2`, the code puts the
first control point at `(5.5, 0)`. Its displacement from the quarter point
`(2.5, 0)` has magnitude `3 ∈ [0.2·d, 0.4·d]` as claimed, but it is parallel
to the start–end line — not within ±45° of the perpendicular — because the
code draws the offset angle about the x-axis, never rotating it to the
line's perpendicular as its own comment and the spec state. -/
theorem controlPoint_not_in_perp_cone_cex :
    (controlPoints halfPathRand ⟨0, 0⟩ ⟨10, 0⟩).1 = ⟨11/2, 0⟩ ∧
    (0.2 * 10 ≤ |(11/2 : ℝ) - 5/2| ∧ |(11/2 : ℝ) - 5/2| ≤ 0.4 * 10) ∧
    ¬ WithinPerpCone ⟨0, 0⟩ ⟨10, 0⟩ ⟨5/2, 0⟩ ⟨11/2, 0⟩ := by
  have hdist : Real.sqrt (((10:ℝ) - 0) * (10 - 0) + (0 - 0) * (0 - 0)) = 10 := by
    rw [show ((10:ℝ) - 0) * (10 - 0) + (0 - 0) * (0 - 0) = 10 ^ 2 by norm_num]
    exact Real.sqrt_sq (by norm_num)
  have hangle : randomBetween (1/2 : ℝ) (-(Real.pi / 4)) (Real.pi / 4) = 0 := by
    simp only [randomBetween]
    ring
  refine ⟨?_, by constructor <;> (rw [abs_of_pos] <;> norm_num), ?_⟩
  · simp only [controlPoints, halfPathRand]
    rw [hdist, hangle, Real.cos_zero, Real.sin_zero]
    norm_num [randomBetween]
  · intro hcone
    simp only [WithinPerpCone] at hcone
    have h9 : Real.sqrt (((11/2 : ℝ) - 5/2) ^ 2 + (0 - 0) ^ 2) = 3 := by
      rw [show ((11/2 : ℝ) - 5/2) ^ 2 + (0 - 0) ^ 2 = 3 ^ 2 by norm_num]
      exact Real.sqrt_sq (by norm_num)
    have h100 : Real.sqrt (((10 : ℝ) - 0) ^ 2 + (0 - 0) ^ 2) = 10 := by
      rw [show ((10 : ℝ) - 0) ^ 2 + (0 - 0) ^ 2 = 10 ^ 2 by norm_num]
      exact Real.sqrt_sq (by norm_num)
    rw [h9, h100] at hcone
    have h2pos : 0 < Real.sqrt 2 := Real.sqrt_pos.mpr (by norm_num)
    norm_num at hcone
    nlinarith [h2pos, hcone]

end Human
